import Mathlib

/-!
Verification development for the per-session dialogue pipeline of the
xiaozhi-esp32-server-golang repository.

The Go source is shallowly embedded: messages (`schema.Message`) become a
structure over `List Char` content, the PostgreSQL message table becomes a
list of rows, the eino branch conditions become recursive functions over
message lists, and the VAD window / TTS pacer arithmetic is carried out on
`Nat`/`Int` with the same integer divisions the Go code performs.
-/

namespace XiaozhiModel

/-- eino graph node name constant `eino.NodeLLM` (internal/data/eino/node_names.go). -/
def NodeLLM : String := "llm"

/-- eino graph node name constant `eino.NodeToolCall`. -/
def NodeToolCall : String := "tool_call"

/-- eino graph node name constant `eino.NodeToolCallResult`. -/
def NodeToolCallResult : String := "tool_call_result"

/-- eino graph node name constant `eino.NodeLLMSentenceCollect`. -/
def NodeLLMSentenceCollect : String := "llm_sentence_collect"

/-- The eino library constant `compose.END`, the sentinel target name that ends a
graph run (value `"end"` in the cloudwego/eino compose package). -/
def EndNode : String := "end"

/-- Embeds `schema.ToolCall` (cloudwego/eino schema): id, type and the function
name/arguments pair. -/
structure ToolCall where
  id : String
  typ : String
  functionName : String
  functionArguments : String
deriving DecidableEq, Repr

/-- Embeds the fields of `schema.Message` used by this repository: role (a plain
string in Go, e.g. "assistant"/"tool"), content (modelled as a byte-faithful
character list so prefix slicing matches Go's `Content[:6]`), tool calls and the
tool-call id. -/
structure Message where
  role : String
  content : List Char
  toolCalls : List ToolCall
  toolCallID : String
deriving DecidableEq, Repr

/-- The role string `schema.Assistant`. -/
def roleAssistant : String := "assistant"

/-- The role string `schema.Tool`. -/
def roleTool : String := "tool"

/-- The role string `schema.User`. -/
def roleUser : String := "user"

/-- The `[STOP]` sentinel prefix that `toolCallResultHandler` prepends to a tool
result that must terminate the graph run. -/
def stopMark : List Char := ['[', 'S', 'T', 'O', 'P', ']']

/-- The Go check `msg.Role == schema.Tool && len(msg.Content) >= 6 &&
msg.Content[:6] == "[STOP]"` from `afterToolCallBranchCondition`
(unnamed/part_004:394) and `branchCondition` (unnamed/part_003:595). -/
def isStopToolResult (msg : Message) : Bool :=
  msg.role == roleTool && decide (6 ≤ msg.content.length) && msg.content.take 6 == stopMark

/-- The Go check `msg.ToolCalls != nil && len(msg.ToolCalls) > 0`. -/
def hasToolCalls (msg : Message) : Bool :=
  !msg.toolCalls.isEmpty

/-- The loop of `afterToolCallBranchCondition` (unnamed/part_004:383-423): walks
the message list carrying the `hasToolCall`/`hasToolResult` flags, returning
`compose.END` as soon as a `[STOP]`-marked tool result is seen; after the loop,
either flag routes back to the LLM node, otherwise the run ends.  Input elements
are `Option Message` mirroring the `[]*schema.Message` slice whose nil entries
are skipped. -/
def branchConditionLoop : List (Option Message) → Bool → Bool → String
  | [], hasToolCall, hasToolResult =>
    if hasToolCall then NodeLLM
    else if hasToolResult then NodeLLM
    else EndNode
  | none :: rest, hasToolCall, hasToolResult =>
    branchConditionLoop rest hasToolCall hasToolResult
  | some msg :: rest, hasToolCall, hasToolResult =>
    if isStopToolResult msg then EndNode
    else
      branchConditionLoop rest (hasToolCall || hasToolCalls msg)
        (hasToolResult || msg.role == roleTool)

/-- `(s *ChatSession) afterToolCallBranchCondition` (unnamed/part_004:383-423):
the list branch installed after the ToolCallResult node with targets
`eino.NodeLLM` and `compose.END`. -/
def afterToolCallBranchCondition (input : List (Option Message)) : String :=
  branchConditionLoop input false false

/-- `(s *ChatSession) branchCondition` (unnamed/part_003:584-624); its body is
line-for-line the same loop as `afterToolCallBranchCondition`. -/
def branchCondition (input : List (Option Message)) : String :=
  branchConditionLoop input false false

/-- Spec-level predicate: some (non-nil) message in the list is a `[STOP]`-marked
tool result. -/
def anyStopToolResult (input : List (Option Message)) : Bool :=
  input.any fun m => (m.map isStopToolResult).getD false

/-- Spec-level predicate: some (non-nil) message carries a tool call or is a tool
result (any tool-call/result, `[STOP]`-marked or not). -/
def anyToolCallOrResult (input : List (Option Message)) : Bool :=
  input.any fun m =>
    (m.map fun msg => hasToolCalls msg || msg.role == roleTool).getD false

/-- `parseAgentID` (unnamed/part_007:331-347): scans the agent id from the right
for the first `:`; on a hit the prefix is the device id and the suffix the
session id, otherwise both results are the whole agent id.  `splitLastColon`
returns the split at the last colon when one exists. -/
def splitLastColon : List Char → Option (List Char × List Char)
  | [] => none
  | c :: rest =>
    match splitLastColon rest with
    | some (d, s) => some (c :: d, s)
    | none => if c = ':' then some ([], rest) else none

/-- `parseAgentID` (unnamed/part_007:331-347), assembled from `splitLastColon`:
`deviceID, sessionID` with both defaulting to the whole agent id when it holds
no colon. -/
def parseAgentID (agentID : List Char) : List Char × List Char :=
  match splitLastColon agentID with
  | some p => p
  | none => (agentID, agentID)

/-- Embeds the `ConversationMessage` gorm model (unnamed/part_007:463-481): one
row of the `conversation_messages` table.  `sequence_num` is an int64 in Go that
only ever holds `COALESCE(MAX(sequence_num),0)+1`, hence nonnegative, so it is
modelled as `Nat`.  The JSONB `multi_content` column and timestamps carry no
information the claims touch and are omitted. -/
structure ConversationMessage where
  sessionID : List Char
  deviceID : List Char
  messageID : String
  sequenceNum : Nat
  role : String
  content : List Char
  toolCalls : List ToolCall
  toolCallID : String
deriving DecidableEq, Repr

/-- The `SELECT COALESCE(MAX(sequence_num), 0) ... WHERE session_id = ?` query
issued by `PGMemory.AddMessage` (unnamed/part_007:114-118). -/
def maxSequenceNum (store : List ConversationMessage) (sessionID : List Char) : Nat :=
  ((store.filter fun r => r.sessionID == sessionID).map
    (fun r => r.sequenceNum)).foldr max 0

/-- First half of `PGMemory.AddMessage` (unnamed/part_007:113-118): the max-
sequence read, a DB statement of its own (no surrounding transaction). -/
def addMessageSelectMaxSeq (store : List ConversationMessage) (agentID : List Char) : Nat :=
  maxSequenceNum store (parseAgentID agentID).2

/-- Second half of `PGMemory.AddMessage` (unnamed/part_007:120-165): builds the
row — fresh `uuid.New().String()` message id supplied by the caller of the
model, `SequenceNum = maxSeq+1` — and the `Create` insert, again a DB statement
of its own. -/
def addMessageInsert (store : List ConversationMessage) (agentID : List Char)
    (msg : Message) (newMessageID : String) (maxSeq : Nat) : List ConversationMessage :=
  let ids := parseAgentID agentID
  store ++ [{ sessionID := ids.2, deviceID := ids.1, messageID := newMessageID,
              sequenceNum := maxSeq + 1, role := msg.role, content := msg.content,
              toolCalls := msg.toolCalls, toolCallID := msg.toolCallID }]

/-- `PGMemory.AddMessage` (unnamed/part_007:104-168) run without interference:
the select immediately followed by the insert.  `ensureSession` only touches the
`conversation_sessions` table, which carries no sequence numbers, and is not
modelled.  `newMessageID` stands for the freshly generated
`uuid.New().String()`. -/
def addMessage (store : List ConversationMessage) (agentID : List Char)
    (msg : Message) (newMessageID : String) : List ConversationMessage :=
  addMessageInsert store agentID msg newMessageID (addMessageSelectMaxSeq store agentID)

/-- Sequential driver: a list of `AddMessage` calls (agent id, message, fresh
uuid), applied in order. -/
def addMessages (store : List ConversationMessage)
    (ops : List (List Char × Message × String)) : List ConversationMessage :=
  ops.foldl (fun st op => addMessage st op.1 op.2.1 op.2.2) store

/-- The `sequence_num`s stored for one session, in insertion order (the order of
the `(session_id, sequence_num)` index scan in `GetSessionMessages` sorted
ascending coincides with it when the invariant holds). -/
def sessionSeqNums (store : List ConversationMessage) (sessionID : List Char) : List Nat :=
  (store.filter fun r => r.sessionID == sessionID).map fun r => r.sequenceNum

/-- An interleaving of two concurrent `AddMessage` calls on the same (initially
empty) session in which both max-sequence selects run before either insert —
possible because `AddMessage` wraps the two statements in no transaction and
takes no lock. -/
def concurrentAppendRun (agentID : List Char) (msgA msgB : Message)
    (idA idB : String) : List ConversationMessage :=
  let mA := addMessageSelectMaxSeq [] agentID
  let mB := addMessageSelectMaxSeq [] agentID
  let s1 := addMessageInsert [] agentID msgA idA mA
  addMessageInsert s1 agentID msgB idB mB

/-- Result of the `WithStreamStatePostHandler` attached to the LLM node: the
deltas written to the output pipe and the graph-state history after the stream
closed. -/
structure StreamPostResult where
  forwarded : List Message
  history : List Message
deriving DecidableEq, Repr

/-- The receive loop of the LLM node's `WithStreamStatePostHandler`
(unnamed/part_004:136-169): each received delta is sent on downstream, and
assistant deltas accumulate into `finalMsg` (content concatenated, tool calls
appended).  Returns the forwarded deltas in order and the final accumulator. -/
def streamPostLoop : List Message → Message → List Message × Message
  | [], finalMsg => ([], finalMsg)
  | msg :: rest, finalMsg =>
    let finalMsg' :=
      if msg.role == roleAssistant then
        { finalMsg with content := finalMsg.content ++ msg.content,
                        toolCalls := finalMsg.toolCalls ++ msg.toolCalls }
      else finalMsg
    let r := streamPostLoop rest finalMsg'
    (msg :: r.1, r.2)

/-- The zero-valued `var finalMsg schema.Message` the Go handler starts from. -/
def emptyFinalMsg : Message :=
  { role := "", content := [], toolCalls := [], toolCallID := "" }

/-- The whole `WithStreamStatePostHandler` (unnamed/part_004:136-169) applied to
a completed stream: on EOF, when `finalMsg.Content != "" ||
len(finalMsg.ToolCalls) > 0`, the role is set to assistant and the aggregate is
appended to `state.history`; otherwise the history is untouched. -/
def withStreamStatePostHandler (history : List Message) (deltas : List Message) :
    StreamPostResult :=
  let r := streamPostLoop deltas emptyFinalMsg
  { forwarded := r.1,
    history :=
      if r.2.content ≠ [] ∨ r.2.toolCalls ≠ [] then
        history ++ [{ r.2 with role := roleAssistant }]
      else history }

/-- Spec-level aggregate: concatenation, in stream order, of the content of all
assistant deltas. -/
def assistantContentJoin (deltas : List Message) : List Char :=
  ((deltas.filter fun m => m.role == roleAssistant).map fun m => m.content).flatten

/-- Spec-level aggregate: concatenation, in stream order, of the tool calls of
all assistant deltas. -/
def assistantToolCallsJoin (deltas : List Message) : List ToolCall :=
  ((deltas.filter fun m => m.role == roleAssistant).map fun m => m.toolCalls).flatten

/-- `vadNeedGetCount := 60 / audioFormat.FrameDuration`
(internal/app/server/common/common.go:158), Go integer division. -/
def vadNeedGetCount (frameDurationMs : Nat) : Nat :=
  60 / frameDurationMs

/-- Frame `i` of the VAD byte buffer: `byteBuffer[i*frameBytes : (i+1)*frameBytes]`
(common.go:229-231). -/
def vadFrame (byteBuffer : List Nat) (frameBytes i : Nat) : List Nat :=
  (byteBuffer.drop (i * frameBytes)).take frameBytes

/-- `frameCount := len(byteBuffer) / frameBytes` (common.go:224). -/
def vadFrameCount (byteBuffer : List Nat) (frameBytes : Nat) : Nat :=
  byteBuffer.length / frameBytes

/-- The `activeFrames` tally of the window loop (common.go:228-242): the number
of complete frames the VAD provider reports active (`isVAD` stands for
`state.VadProvider.IsVAD`, modelled error-free). -/
def vadActiveFrames (byteBuffer : List Nat) (frameBytes : Nat)
    (isVAD : List Nat → Bool) : Nat :=
  ((List.range (vadFrameCount byteBuffer frameBytes)).filter fun i =>
    isVAD (vadFrame byteBuffer frameBytes i)).length

/-- The window-processing block of `ProcessVadAudio` (common.go:222-253), which
runs once `len(byteBuffer) >= frameBytes*vadNeedGetCount`: the majority vote
`haveVoice = activeFrames > frameCount/2` (Go integer division) and the removal
`byteBuffer = byteBuffer[frameCount*frameBytes:]` of the processed frames. -/
def processVadWindow (byteBuffer : List Nat) (frameBytes : Nat)
    (isVAD : List Nat → Bool) : Bool × List Nat :=
  let frameCount := vadFrameCount byteBuffer frameBytes
  let activeFrames := vadActiveFrames byteBuffer frameBytes isVAD
  (decide (frameCount / 2 < activeFrames),
   byteBuffer.drop (frameCount * frameBytes))

/-- `cacheFrameCount := 120 / t.clientState.OutputAudioFormat.FrameDuration`
(unnamed/part_005:155): Go integer (floor) division of the 120 ms pre-roll
target by the output frame duration. -/
def cacheFrameCount (frameDurationMs : Nat) : Nat :=
  120 / frameDurationMs

/-- Capacity of `metaAudioChan` (unnamed/part_005:167). -/
def metaAudioChanCap : Nat := 1000

/-- Capacity of `flowControlChan` (unnamed/part_005:161). -/
def flowControlChanCap : Nat := 1000

/-- A non-blocking buffered-channel send, the `select { case ch <- frame:
default: }` idiom: the frame is enqueued when the buffer has room, otherwise the
channel is left unchanged and the frame goes nowhere on that path. -/
def trySendChan (chanElems : List (List Nat)) (capacity : Nat) (frame : List Nat) :
    List (List Nat) :=
  if chanElems.length < capacity then chanElems ++ [frame] else chanElems

/-- Channel states after the per-frame dispatch step of `SendTTSAudio`. -/
structure DispatchResult where
  metaChan : List (List Nat)
  flowChan : List (List Nat)
deriving DecidableEq, Repr

/-- The per-frame dispatch of the `SendTTSAudio` main loop
(unnamed/part_005:197-213): a non-blocking send to `metaAudioChan` (full ⇒ the
frame is skipped for the digital-human path, common.go logs it) followed by a
non-blocking send to `flowControlChan` (full ⇒ `log.Warnf` and the frame is
likewise not enqueued). -/
def sendTTSAudioDispatch (metaChan flowChan : List (List Nat)) (frame : List Nat) :
    DispatchResult :=
  { metaChan := trySendChan metaChan metaAudioChanCap frame,
    flowChan := trySendChan flowChan flowControlChanCap frame }

/-- Whether the dispatch step delivered the frame to the flow-control (pacer)
channel. -/
def deliveredToPacer (metaChan flowChan : List (List Nat)) (frame : List Nat) : Prop :=
  (sendTTSAudioDispatch metaChan flowChan frame).flowChan = flowChan ++ [frame]

/-- Observable outcome of one `processFlowControl` goroutine run: the
`(send instant, frame)` pairs passed to `serverTransport.SendAudio` (instants in
milliseconds relative to `startTime`), the final `*totalFrames`, and the instant
at which the goroutine returns. -/
structure FlowControlRun where
  sendEvents : List (Int × List Nat)
  totalFrames : Nat
  returnInstant : Int
deriving DecidableEq, Repr

/-- `(t *TTSManager) processFlowControl` (unnamed/part_005:220-284) as the code
actually executes: after `defer wg.Done()` its first statement is an
unconditional `return` (line 223), so the absolute-time pacing loop below it is
unreachable — no frame is ever read from `flowControlChan`, sent, or paced, and
`*totalFrames` stays 0. -/
def processFlowControl (flowControlFrames : List (List Nat))
    (cacheFrames frameDurationMs : Nat) : FlowControlRun :=
  let _ := flowControlFrames
  let _ := cacheFrames
  let _ := frameDurationMs
  { sendEvents := [], totalFrames := 0, returnInstant := 0 }

/-- The unreachable pacing loop in the body of `processFlowControl`
(unnamed/part_005:226-284), modelled on an integer millisecond clock starting at
`startTime = 0`, with the queued frames already produced (TTS is faster than
real time) and sends instantaneous: before frame `n` (0-based counter
`*totalFrames`) the goroutine sleeps until
`startTime + (totalFrames - cacheFrames) * frameDuration` if that instant is
still ahead, sends, and on channel close waits out
`totalFrames*frameDuration - elapsed` when positive. -/
def flowControlLoopAux (cacheFrames frameDurationMs : Nat) :
    List (List Nat) → Nat → Int → List (Int × List Nat) × Int
  | [], total, now => ([], max now ((total : Int) * (frameDurationMs : Int)))
  | frame :: rest, total, now =>
    let next : Int := ((total : Int) - (cacheFrames : Int)) * (frameDurationMs : Int)
    let sendAt := max now next
    let r := flowControlLoopAux cacheFrames frameDurationMs rest (total + 1) sendAt
    ((sendAt, frame) :: r.1, r.2)

/-- The unreachable pacing loop of `processFlowControl`, run from the start of a
speech burst on an already-filled queue: send events and return instant. -/
def flowControlDeadLoop (frames : List (List Nat)) (cacheFrames frameDurationMs : Nat) :
    List (Int × List Nat) × Int :=
  flowControlLoopAux cacheFrames frameDurationMs frames 0 0

/-- Example agent id `"dev:ses"` used by the concrete counterexample runs. -/
def demoAgentID : List Char := ['d', 'e', 'v', ':', 's', 'e', 's']

/-- The session id `parseAgentID` extracts from `demoAgentID`. -/
def demoSessionID : List Char := ['s', 'e', 's']

/-- A plain user message. -/
def demoUserMsg : Message :=
  { role := roleUser, content := ['h', 'i'], toolCalls := [], toolCallID := "" }

/-- A plain assistant message. -/
def demoAssistantMsg : Message :=
  { role := roleAssistant, content := ['y', 'o'], toolCalls := [], toolCallID := "" }

/-- A tool result that is not `[STOP]`-marked. -/
def demoToolResultPlain : Message :=
  { role := roleTool, content := ['o', 'k'], toolCalls := [], toolCallID := "1" }

/-- A `[STOP]`-marked tool result, as `toolCallResultHandler` emits when
`processToolCallResult` reports `shouldStop`. -/
def demoToolResultStop : Message :=
  { role := roleTool, content := stopMark ++ ['d', 'o', 'n', 'e'], toolCalls := [],
    toolCallID := "2" }

/-- An assistant delta with empty content and no tool calls: a stream made only
of such deltas closes with an empty aggregate. -/
def demoEmptyDelta : Message :=
  { role := roleAssistant, content := [], toolCalls := [], toolCallID := "" }

/-- A full flow-control channel: 1000 frames already queued. -/
def fullFlowChan : List (List Nat) := List.replicate flowControlChanCap [0]

/-- A kept-VAD-feed buffer being contiguous `1, 2, ..., n`: the §8 invariant the
spec states for per-session sequence numbers. -/
def contiguousFromOne (l : List Nat) : Prop :=
  l = List.range' 1 l.length

/-- Concrete VAD predicate for witnesses: a frame is active when its first byte
is 1. -/
def demoIsVAD (frame : List Nat) : Bool :=
  frame.headD 0 == 1

/-- Concrete VAD byte buffer for witnesses: three 2-byte frames, two active. -/
def demoVadBuf : List Nat := [1, 0, 1, 0, 0, 0]

section BranchTheorems

/-- The early-return loop of the tool-call branch equals its two-pass
description: a `[STOP]`-marked tool result anywhere forces `compose.END`;
otherwise the incoming flags or any tool-call/tool-result message route back to
the LLM node, and failing that the run ends. -/
theorem branchConditionLoop_characterization (input : List (Option Message))
    (hc hr : Bool) :
    branchConditionLoop input hc hr =
      if anyStopToolResult input then EndNode
      else if hc || hr || anyToolCallOrResult input then NodeLLM
      else EndNode := by
  induction input generalizing hc hr with
  | nil =>
    simp only [branchConditionLoop, anyStopToolResult, anyToolCallOrResult, List.any_nil]
    cases hc <;> cases hr <;> simp
  | cons head rest ih =>
    cases head with
    | none =>
      simp only [branchConditionLoop, anyStopToolResult, anyToolCallOrResult,
        List.any_cons, Option.map_none', Option.getD_none, Bool.false_or]
      exact ih hc hr
    | some msg =>
      by_cases hstop : isStopToolResult msg = true
      · simp [branchConditionLoop, anyStopToolResult, List.any_cons, hstop]
      · rw [Bool.not_eq_true] at hstop
        simp only [branchConditionLoop, hstop, Bool.false_eq_true, if_false,
          anyStopToolResult, anyToolCallOrResult, List.any_cons, Option.map_some',
          Option.getD_some, Bool.false_or]
        rw [ih]
        simp only [anyStopToolResult, anyToolCallOrResult]
        by_cases hs : (List.any rest fun m => (m.map isStopToolResult).getD false) = true
        · simp [hs]
        · rw [Bool.not_eq_true] at hs
          simp only [hs, Bool.false_eq_true, if_false]
          congr 1
          cases hc <;> cases hr <;> cases h1 : hasToolCalls msg <;>
            cases h2 : msg.role == roleTool <;> simp

/-- C2: once a `[STOP]`-marked tool result is among the messages the
ToolCallResult node hands to the branch, `afterToolCallBranchCondition` (and the
identical `branchCondition`) selects `compose.END`, which is a different target
than the LLM node — the LLM is not invoked again in that run. -/
theorem stop_tool_result_ends_run (input : List (Option Message)) (msg : Message)
    (hmem : some msg ∈ input) (hstop : isStopToolResult msg = true) :
    afterToolCallBranchCondition input = EndNode ∧
    branchCondition input = EndNode ∧
    EndNode ≠ NodeLLM := by
  have hany : anyStopToolResult input = true := by
    refine List.any_eq_true.mpr ⟨some msg, hmem, ?_⟩
    simp [hstop]
  refine ⟨?_, ?_, by decide⟩
  · rw [afterToolCallBranchCondition, branchConditionLoop_characterization, hany]
    simp
  · rw [branchCondition, branchConditionLoop_characterization, hany]
    simp

/-- Witness for C2: the branch on a singleton `[STOP]` tool result. -/
theorem stop_tool_result_ends_run_witness :
    afterToolCallBranchCondition [some demoToolResultStop] = EndNode ∧
    branchCondition [some demoToolResultStop] = EndNode ∧
    EndNode ≠ NodeLLM :=
  stop_tool_result_ends_run [some demoToolResultStop] demoToolResultStop
    (by decide) (by decide)

/-- Counterexample to C3 as stated: the list holds a tool result that is not
`[STOP]`-marked (`demoToolResultPlain`), so the claim requires routing back to
the LLM node, yet the branch returns `compose.END` because a `[STOP]`-marked
result is also present. -/
theorem nonstop_plus_stop_routes_end :
    demoToolResultPlain.role = roleTool ∧
    isStopToolResult demoToolResultPlain = false ∧
    afterToolCallBranchCondition [some demoToolResultPlain, some demoToolResultStop] =
      EndNode ∧
    EndNode ≠ NodeLLM := by
  decide

/-- C3 (amended): the list branch after ToolCallResult returns `compose.END`
whenever some `[STOP]`-marked tool result is present; otherwise it routes back
to the LLM node if and only if the list contains some tool-call or tool-result
message, and returns `compose.END` when it contains neither. -/
theorem afterToolCall_branch_routing (input : List (Option Message)) :
    afterToolCallBranchCondition input =
      if anyStopToolResult input then EndNode
      else if anyToolCallOrResult input then NodeLLM
      else EndNode := by
  rw [afterToolCallBranchCondition, branchConditionLoop_characterization]
  simp

end BranchTheorems

section StreamPostTheorems

/-- The post-handler loop writes every received delta to the output pipe,
unchanged and in order. -/
theorem streamPostLoop_forwarded (deltas : List Message) (acc : Message) :
    (streamPostLoop deltas acc).1 = deltas := by
  induction deltas generalizing acc with
  | nil => rfl
  | cons msg rest ih => simp [streamPostLoop, ih]

/-- The post-handler loop's accumulator collects exactly the assistant deltas:
contents concatenated and tool calls concatenated, in stream order, onto the
incoming accumulator. -/
theorem streamPostLoop_final (deltas : List Message) (acc : Message) :
    (streamPostLoop deltas acc).2 =
      { acc with content := acc.content ++ assistantContentJoin deltas,
                 toolCalls := acc.toolCalls ++ assistantToolCallsJoin deltas } := by
  induction deltas generalizing acc with
  | nil => simp [streamPostLoop, assistantContentJoin, assistantToolCallsJoin]
  | cons msg rest ih =>
    by_cases h : (msg.role == roleAssistant) = true
    · simp [streamPostLoop, h, ih, assistantContentJoin, assistantToolCallsJoin,
        List.filter_cons, List.append_assoc]
    · rw [Bool.not_eq_true] at h
      simp [streamPostLoop, h, ih, assistantContentJoin, assistantToolCallsJoin,
        List.filter_cons]

/-- Counterexample to C5 as stated: an LLM stream whose only delta is an
assistant delta with empty content and no tool calls closes with zero assistant
messages appended to the graph history, not exactly one. -/
theorem empty_stream_appends_no_message :
    (withStreamStatePostHandler [] [demoEmptyDelta]).history.length = 0 ∧
    (0 : Nat) ≠ 1 := by
  decide

/-- C5 (amended): after the LLM stream closes the post-handler has forwarded
every delta downstream unchanged and in order, and has appended at most one
assistant message: exactly one — whose content is the concatenation in stream
order of the assistant deltas' text and whose tool-call list is the
concatenation of the assistant deltas' tool calls — precisely when that
aggregate is non-empty, and none otherwise. -/
theorem llm_stream_aggregation (history deltas : List Message) :
    (withStreamStatePostHandler history deltas).forwarded = deltas ∧
    (withStreamStatePostHandler history deltas).history =
      (if assistantContentJoin deltas ≠ [] ∨ assistantToolCallsJoin deltas ≠ [] then
        history ++ [{ role := roleAssistant, content := assistantContentJoin deltas,
                      toolCalls := assistantToolCallsJoin deltas, toolCallID := "" }]
      else history) := by
  constructor
  · simp [withStreamStatePostHandler, streamPostLoop_forwarded]
  · simp [withStreamStatePostHandler, streamPostLoop_final, emptyFinalMsg]

end StreamPostTheorems

section MemoryStoreTheorems

/-- A colon-free character list admits no split. -/
theorem splitLastColon_eq_none (a : List Char) (h : ':' ∉ a) :
    splitLastColon a = none := by
  induction a with
  | nil => rfl
  | cons c rest ih =>
    have hc : c ≠ ':' := fun hcc => h (hcc ▸ List.mem_cons_self c rest)
    have hrest : ':' ∉ rest := fun hm => h (List.mem_cons_of_mem c hm)
    simp [splitLastColon, ih hrest, hc]

/-- When the suffix after a colon is colon-free, the split lands exactly on that
colon — it is the last one. -/
theorem splitLastColon_append (d s : List Char) (h : ':' ∉ s) :
    splitLastColon (d ++ ':' :: s) = some (d, s) := by
  induction d with
  | nil => simp [splitLastColon, splitLastColon_eq_none s h]
  | cons c rest ih => simp [splitLastColon, ih]

/-- C10: `parseAgentID` splits at the last colon — when the agent id contains a
colon, the device id is the prefix before the last colon and the session id the
suffix after it; a colon-free agent id is returned as both device id and session
id, so memory operations on a bare device id key the session by the device id
itself. -/
theorem parseAgentID_last_colon :
    (∀ a : List Char, ':' ∉ a → parseAgentID a = (a, a)) ∧
    (∀ d s : List Char, ':' ∉ s → parseAgentID (d ++ ':' :: s) = (d, s)) := by
  constructor
  · intro a h
    simp [parseAgentID, splitLastColon_eq_none a h]
  · intro d s h
    simp [parseAgentID, splitLastColon_append d s h]

/-- Witness for C10: `"dev:ses"` splits into `"dev"` and `"ses"`, and the
colon-free `"dev"` maps to itself twice. -/
theorem parseAgentID_last_colon_witness :
    parseAgentID (['d', 'e', 'v'] ++ ':' :: ['s', 'e', 's']) =
      (['d', 'e', 'v'], ['s', 'e', 's']) ∧
    parseAgentID ['d', 'e', 'v'] = (['d', 'e', 'v'], ['d', 'e', 'v']) :=
  ⟨parseAgentID_last_colon.2 ['d', 'e', 'v'] ['s', 'e', 's'] (by decide),
   parseAgentID_last_colon.1 ['d', 'e', 'v'] (by decide)⟩

/-- Folding `max` from an arbitrary base over a list of naturals. -/
theorem foldr_max_base (l : List Nat) (b : Nat) :
    l.foldr max b = max b (l.foldr max 0) := by
  induction l generalizing b with
  | nil => simp
  | cons a l ih =>
    rw [List.foldr_cons, List.foldr_cons, ih b]
    omega

/-- The max sequence number over a store with one row appended. -/
theorem maxSequenceNum_snoc (store : List ConversationMessage)
    (row : ConversationMessage) (sid : List Char) :
    maxSequenceNum (store ++ [row]) sid =
      if row.sessionID == sid then max (maxSequenceNum store sid) row.sequenceNum
      else maxSequenceNum store sid := by
  by_cases h : (row.sessionID == sid) = true
  · simp only [maxSequenceNum, List.filter_append, List.filter_cons, h, if_true,
      List.filter_nil, List.map_append, List.map_cons, List.map_nil,
      List.foldr_append, List.foldr_cons, List.foldr_nil]
    rw [foldr_max_base]
    simp [Nat.max_comm]
  · rw [Bool.not_eq_true] at h
    simp [maxSequenceNum, List.filter_append, List.filter_cons, h]

/-- The per-session sequence-number view of a store with one row appended. -/
theorem sessionSeqNums_snoc (store : List ConversationMessage)
    (row : ConversationMessage) (sid : List Char) :
    sessionSeqNums (store ++ [row]) sid =
      if row.sessionID == sid then sessionSeqNums store sid ++ [row.sequenceNum]
      else sessionSeqNums store sid := by
  by_cases h : (row.sessionID == sid) = true
  · simp [sessionSeqNums, List.filter_append, List.filter_cons, h]
  · rw [Bool.not_eq_true] at h
    simp [sessionSeqNums, List.filter_append, List.filter_cons, h]

/-- The max sequence number is the fold of the session view. -/
theorem maxSequenceNum_eq_foldr (store : List ConversationMessage) (sid : List Char) :
    maxSequenceNum store sid = (sessionSeqNums store sid).foldr max 0 := rfl

/-- `max` folded over `1, ..., n` is `n`. -/
theorem foldr_max_range' (s n : Nat) :
    (List.range' s n).foldr max 0 = if n = 0 then 0 else s + n - 1 := by
  induction n generalizing s with
  | zero => rfl
  | succ n ih =>
    rw [List.range'_succ]
    simp only [List.foldr_cons, ih]
    by_cases h : n = 0
    · simp [h]
    · simp only [h, if_false, Nat.succ_ne_zero]
      omega

/-- One `AddMessage` preserves the contiguity of every session's sequence
numbers. -/
theorem addMessage_preserves_contiguous (store : List ConversationMessage)
    (a : List Char) (msg : Message) (u : String)
    (h : ∀ sid, contiguousFromOne (sessionSeqNums store sid)) :
    ∀ sid, contiguousFromOne (sessionSeqNums (addMessage store a msg u) sid) := by
  intro sid
  have hrow : addMessage store a msg u =
      store ++ [{ sessionID := (parseAgentID a).2, deviceID := (parseAgentID a).1,
                  messageID := u,
                  sequenceNum := maxSequenceNum store (parseAgentID a).2 + 1,
                  role := msg.role, content := msg.content,
                  toolCalls := msg.toolCalls, toolCallID := msg.toolCallID }] := rfl
  rw [hrow, sessionSeqNums_snoc]
  by_cases hsid : ((parseAgentID a).2 == sid) = true
  · have hsid' : (parseAgentID a).2 = sid := by
      exact eq_of_beq hsid
    simp only [hsid, if_true]
    have hcont := h sid
    rw [contiguousFromOne] at hcont ⊢
    rw [hsid', maxSequenceNum_eq_foldr store sid, hcont]
    set n := (sessionSeqNums store sid).length with hn
    rw [foldr_max_range']
    by_cases hzero : n = 0
    · simp [hzero, List.range']
    · simp only [hzero, if_false]
      have h1 : 1 + n - 1 + 1 = 1 + n := by omega
      rw [h1]
      have h2 : (List.range' 1 n ++ [1 + n]).length = n + 1 := by
        simp [List.length_range']
      rw [h2]
      have h3 : List.range' 1 (n + 1) = List.range' 1 n ++ [1 + 1 * n] :=
        List.range'_concat 1 n
      rw [h3, one_mul]
  · simp only [hsid, if_false]
    exact h sid

/-- Any sequence of `AddMessage` calls starting from a store whose sessions are
all contiguous keeps them contiguous. -/
theorem addMessages_preserves_contiguous (ops : List (List Char × Message × String)) :
    ∀ (store : List ConversationMessage),
      (∀ sid, contiguousFromOne (sessionSeqNums store sid)) →
      ∀ sid, contiguousFromOne (sessionSeqNums (addMessages store ops) sid) := by
  induction ops with
  | nil => intro store h; exact h
  | cons op rest ih =>
    intro store h
    exact ih (addMessage store op.1 op.2.1 op.2.2)
      (addMessage_preserves_contiguous store op.1 op.2.1 op.2.2 h)

/-- Counterexample to C4 as stated: `AddMessage` issues its max-sequence select
and its insert as two separate statements with no transaction or lock, so the
interleaving of two concurrent appends on the same empty session in which both
selects precede both inserts persists the duplicated sequence numbers `1, 1` —
neither contiguous `1, 2` nor duplicate-free. -/
theorem concurrent_appends_duplicate_seq :
    sessionSeqNums
        (concurrentAppendRun demoAgentID demoUserMsg demoAssistantMsg "uuid-a" "uuid-b")
        demoSessionID = [1, 1] ∧
    ¬ (sessionSeqNums
        (concurrentAppendRun demoAgentID demoUserMsg demoAssistantMsg "uuid-a" "uuid-b")
        demoSessionID).Nodup ∧
    [1, 1] ≠ List.range' 1 2 := by
  decide

/-- C4 (amended): each `AddMessage`, run without interference, appends to its
session exactly the sequence number `max(sequence_num)+1` (so an empty session
receives 1), and any serially executed sequence of `AddMessage` calls starting
from an empty store leaves every session's sequence numbers contiguous
`1, 2, ..., n`; the select and insert are however not serialized per session, so
this extends to concurrent appends only if the caller serializes them. -/
theorem addMessage_sequencing :
    (∀ (store : List ConversationMessage) (a : List Char) (msg : Message) (u : String),
      sessionSeqNums (addMessage store a msg u) (parseAgentID a).2 =
        sessionSeqNums store (parseAgentID a).2 ++
          [maxSequenceNum store (parseAgentID a).2 + 1]) ∧
    (∀ (ops : List (List Char × Message × String)) (sid : List Char),
      contiguousFromOne (sessionSeqNums (addMessages [] ops) sid)) := by
  constructor
  · intro store a msg u
    have hrow : addMessage store a msg u =
        store ++ [{ sessionID := (parseAgentID a).2, deviceID := (parseAgentID a).1,
                    messageID := u,
                    sequenceNum := maxSequenceNum store (parseAgentID a).2 + 1,
                    role := msg.role, content := msg.content,
                    toolCalls := msg.toolCalls, toolCallID := msg.toolCallID }] := rfl
    rw [hrow, sessionSeqNums_snoc]
    simp
  · intro ops sid
    refine addMessages_preserves_contiguous ops [] ?_ sid
    intro s
    rfl

/-- Counterexample to C7 as stated: appending the same message twice does not
leave the store unchanged on the second call — two rows are inserted, because
`AddMessage` generates a fresh uuid per call instead of keying on any message
id. -/
theorem duplicate_append_not_idempotent :
    addMessage (addMessage [] demoAgentID demoUserMsg "uuid-a")
        demoAgentID demoUserMsg "uuid-b" ≠
      addMessage [] demoAgentID demoUserMsg "uuid-a" ∧
    (addMessage (addMessage [] demoAgentID demoUserMsg "uuid-a")
        demoAgentID demoUserMsg "uuid-b").length = 2 := by
  decide

/-- C7 (amended): `AddMessage` has no at-most-once semantics — the incoming
`schema.Message` carries no message id, and the stored `message_id` is a fresh
`uuid.New()` per call, so every append inserts exactly one new row and a second
append of the same message inserts a second row with the same role and content,
a new uuid and the next sequence number. -/
theorem addMessage_always_inserts (store : List ConversationMessage)
    (a : List Char) (msg : Message) (u1 u2 : String) :
    ∃ r1 r2 : ConversationMessage,
      addMessage (addMessage store a msg u1) a msg u2 = store ++ [r1, r2] ∧
      r1.messageID = u1 ∧ r2.messageID = u2 ∧
      r1.role = msg.role ∧ r2.role = msg.role ∧
      r1.content = msg.content ∧ r2.content = msg.content ∧
      r1.sequenceNum = maxSequenceNum store (parseAgentID a).2 + 1 ∧
      r2.sequenceNum = r1.sequenceNum + 1 := by
  set t := (parseAgentID a).2 with ht
  set r1 : ConversationMessage :=
    { sessionID := t, deviceID := (parseAgentID a).1, messageID := u1,
      sequenceNum := maxSequenceNum store t + 1,
      role := msg.role, content := msg.content,
      toolCalls := msg.toolCalls, toolCallID := msg.toolCallID } with hr1
  have hmax2 : maxSequenceNum (store ++ [r1]) t = maxSequenceNum store t + 1 := by
    rw [maxSequenceNum_snoc]
    simp [hr1]
  refine ⟨r1,
    { sessionID := t, deviceID := (parseAgentID a).1, messageID := u2,
      sequenceNum := maxSequenceNum store t + 2,
      role := msg.role, content := msg.content,
      toolCalls := msg.toolCalls, toolCallID := msg.toolCallID }, ?_,
    rfl, rfl, rfl, rfl, rfl, rfl, rfl, rfl⟩
  show addMessageInsert (addMessage store a msg u1) a msg u2
      (addMessageSelectMaxSeq (addMessage store a msg u1) a) = _
  have hstep : addMessage store a msg u1 = store ++ [r1] := rfl
  rw [hstep, addMessageInsert, addMessageSelectMaxSeq, ← ht, hmax2]
  simp

end MemoryStoreTheorems

section VadTheorems

/-- C6: once the VAD-feed holds a full window (`frameBytes * vadNeedGetCount`
bytes or more), the window of `N = len/frameBytes` complete frames with `k`
active is declared voice-present exactly when `k` is a strict majority
(`2k > N`, so a tie is not voice — the Go comparison `k > N/2` under integer
division is equivalent), and the processed frames are removed: the buffer keeps
only the `len mod frameBytes` trailing bytes of an incomplete frame. -/
theorem vad_majority_window (byteBuffer : List Nat) (frameBytes frameDurationMs : Nat)
    (isVAD : List Nat → Bool) (hpos : 0 < frameBytes)
    (_hwin : frameBytes * vadNeedGetCount frameDurationMs ≤ byteBuffer.length) :
    ((processVadWindow byteBuffer frameBytes isVAD).1 = true ↔
      vadFrameCount byteBuffer frameBytes <
        2 * vadActiveFrames byteBuffer frameBytes isVAD) ∧
    (processVadWindow byteBuffer frameBytes isVAD).2 =
      byteBuffer.drop (vadFrameCount byteBuffer frameBytes * frameBytes) ∧
    (processVadWindow byteBuffer frameBytes isVAD).2.length =
      byteBuffer.length % frameBytes := by
  refine ⟨?_, rfl, ?_⟩
  · rw [processVadWindow]
    simp only [decide_eq_true_eq]
    rw [Nat.div_lt_iff_lt_mul (by omega : 0 < 2)]
    omega
  · rw [processVadWindow]
    simp only [List.length_drop, vadFrameCount]
    have hdm := Nat.div_add_mod byteBuffer.length frameBytes
    have hmod : byteBuffer.length % frameBytes < frameBytes := Nat.mod_lt _ hpos
    have hcomm : byteBuffer.length / frameBytes * frameBytes =
        frameBytes * (byteBuffer.length / frameBytes) := Nat.mul_comm _ _
    omega

/-- Witness for C6: a 6-byte buffer of three 2-byte frames at 20 ms frames
(window trigger `2*3 = 6 ≤ 6`), two of them active: a strict majority, so voice
is declared and the buffer is emptied. -/
theorem vad_majority_window_witness :
    ((processVadWindow demoVadBuf 2 demoIsVAD).1 = true ↔
      vadFrameCount demoVadBuf 2 < 2 * vadActiveFrames demoVadBuf 2 demoIsVAD) ∧
    (processVadWindow demoVadBuf 2 demoIsVAD).2 =
      demoVadBuf.drop (vadFrameCount demoVadBuf 2 * 2) ∧
    (processVadWindow demoVadBuf 2 demoIsVAD).2.length = demoVadBuf.length % 2 :=
  vad_majority_window demoVadBuf 2 20 demoIsVAD (by decide) (by decide)

end VadTheorems

section PacerTheorems

/-- Counterexample to C8 as stated: the code computes the pre-roll depth with
Go's truncating integer division, so a 25 ms frame duration yields 4 cache
frames, not the `ceil(120/25) = 5` the claim gives. -/
theorem cacheFrameCount_25_not_ceil :
    cacheFrameCount 25 = 4 ∧ (120 + 25 - 1) / 25 = 5 ∧ (4 : Nat) ≠ 5 := by
  decide

/-- C8 (amended): the pre-roll depth is `cacheFrames = floor(120 ms /
frameDuration)` — the unique `q` with `q*frameDuration ≤ 120 <
(q+1)*frameDuration` — which agrees with the ceiling only when the frame
duration divides 120 ms: 20 ms still yields 6, but 25 ms yields 4. -/
theorem cacheFrameCount_is_floor :
    (∀ d : Nat, 0 < d →
      cacheFrameCount d * d ≤ 120 ∧ 120 < (cacheFrameCount d + 1) * d) ∧
    cacheFrameCount 20 = 6 ∧ cacheFrameCount 25 = 4 := by
  refine ⟨?_, by decide, by decide⟩
  intro d hd
  have hdm := Nat.div_add_mod 120 d
  have hmod : 120 % d < d := Nat.mod_lt _ hd
  constructor
  · rw [cacheFrameCount]
    have : 120 / d * d = d * (120 / d) := Nat.mul_comm _ _
    omega
  · rw [cacheFrameCount, Nat.add_mul, one_mul]
    have : 120 / d * d = d * (120 / d) := Nat.mul_comm _ _
    omega

/-- Witness for C8 (amended): the floor characterization at a 25 ms frame
duration. -/
theorem cacheFrameCount_is_floor_witness :
    cacheFrameCount 25 * 25 ≤ 120 ∧ 120 < (cacheFrameCount 25 + 1) * 25 :=
  cacheFrameCount_is_floor.1 25 (by decide)

/-- The unreachable pacing loop would send every queued frame. -/
theorem flowControlLoopAux_length (cacheFrames frameDurationMs : Nat)
    (frames : List (List Nat)) :
    ∀ (total : Nat) (now : Int),
      (flowControlLoopAux cacheFrames frameDurationMs frames total now).1.length =
        frames.length := by
  induction frames with
  | nil => intro total now; rfl
  | cons frame rest ih =>
    intro total now
    simp [flowControlLoopAux, ih]

/-- C1 (the code as it runs, against the claim): `processFlowControl` returns at
its first statement, so for every stream it performs zero sends, zero paced
waits and returns at once, while the pacing loop written below that `return`
(modelled by `flowControlDeadLoop`) would send every frame and, on the concrete
three-frame 20 ms stream, hold the goroutine until the full
`totalFrames*frameDuration = 60 ms` of audio has played out. -/
theorem processFlowControl_never_paces :
    (∀ (frames : List (List Nat)) (cacheFrames d : Nat),
      (processFlowControl frames cacheFrames d).sendEvents = [] ∧
      (processFlowControl frames cacheFrames d).totalFrames = 0 ∧
      (processFlowControl frames cacheFrames d).returnInstant = 0) ∧
    (∀ (frames : List (List Nat)) (cacheFrames d : Nat),
      (flowControlDeadLoop frames cacheFrames d).1.length = frames.length) ∧
    (flowControlDeadLoop [[1], [2], [3]] (cacheFrameCount 20) 20).1.length = 3 ∧
    (flowControlDeadLoop [[1], [2], [3]] (cacheFrameCount 20) 20).2 = 60 := by
  refine ⟨fun frames cacheFrames d => ⟨rfl, rfl, rfl⟩, ?_, by decide, by decide⟩
  intro frames cacheFrames d
  exact flowControlLoopAux_length cacheFrames d frames 0 0

end PacerTheorems

section DispatchTheorems

/-- Counterexample to C9 as stated: with the 1000-slot flow-control channel
full, the non-blocking send's default branch fires — the warning is logged but
the frame is dropped, not delivered to the pacer. -/
theorem full_pacer_channel_drops_frame :
    (sendTTSAudioDispatch [] fullFlowChan [7]).flowChan = fullFlowChan ∧
    [7] ∉ (sendTTSAudioDispatch [] fullFlowChan [7]).flowChan ∧
    ¬ deliveredToPacer [] fullFlowChan [7] := by
  have hfull : ¬ fullFlowChan.length < flowControlChanCap := by
    simp [fullFlowChan]
  have hchan : (sendTTSAudioDispatch [] fullFlowChan [7]).flowChan = fullFlowChan := by
    simp [sendTTSAudioDispatch, trySendChan, hfull]
  refine ⟨hchan, ?_, ?_⟩
  · rw [hchan]
    simp [fullFlowChan, List.mem_replicate]
  · rw [deliveredToPacer, hchan]
    intro hcontra
    have := congrArg List.length hcontra
    simp at this

/-- C9 (amended): the ingestion loop never blocks on either fan-out channel —
each frame is offered to the digital-human channel and then to the pacer channel
with non-blocking sends, and it reaches the pacer channel exactly when that
channel has room; on overflow the digital-human path skips the frame and the
pacer path warns and likewise drops it. -/
theorem dispatch_nonblocking (metaChan flowChan : List (List Nat)) (frame : List Nat) :
    ((sendTTSAudioDispatch metaChan flowChan frame).metaChan =
        if metaChan.length < metaAudioChanCap then metaChan ++ [frame] else metaChan) ∧
    ((sendTTSAudioDispatch metaChan flowChan frame).flowChan =
        if flowChan.length < flowControlChanCap then flowChan ++ [frame] else flowChan) ∧
    (deliveredToPacer metaChan flowChan frame ↔ flowChan.length < flowControlChanCap) := by
  refine ⟨rfl, rfl, ?_⟩
  show trySendChan flowChan flowControlChanCap frame = flowChan ++ [frame] ↔ _
  by_cases h : flowChan.length < flowControlChanCap
  · simp [trySendChan, h]
  · rw [trySendChan, if_neg h]
    constructor
    · intro hcontra
      have := congrArg List.length hcontra
      simp at this
    · intro hcontra
      exact absurd hcontra h

end DispatchTheorems

end XiaozhiModel
